import Mathlib

/-!
Verification of the roster-selection core of the Fantasy-Premier-League-LTX
repository (`src/find_best_team.py`, function `select_best_team`).

The embedding below translates the Python source into Lean:

* A dataframe row becomes a `Player` record with the columns the algorithm
  reads (`element_type`, `team_name`, `now_cost`, `total_points`).
* The ranking key `np.log(total_points ** 2 / now_cost)` is modelled by the
  exact rational `total_points ^ 2 / now_cost`: the natural logarithm is
  strictly monotone on positive reals, so sorting descending by the log of the
  quotient orders candidates exactly as sorting descending by the quotient
  itself, and `log 0 = -infinity` corresponds to the quotient `0`, the least
  value attained when `total_points = 0` and `now_cost > 0`.
* `pandas.sort_values(ascending=False)` is modelled as a descending sort
  (`List.insertionSort` over `value_metric b ≤ value_metric a`).  The default
  `kind='quicksort'` kernel is not documented stable, so the program fixes no
  particular order among equal-metric rows on large inputs; the embedding is
  one deterministic refinement of it, and no theorem below depends on the
  relative order of equal-metric candidates (only on sortedness, membership
  and the exact behavior on the small concrete inputs, where numpy's kernel
  is an insertion sort and the orders coincide).
* Python exceptions (`KeyError` on an unknown `element_type` in the main loop,
  `IndexError` from `.iloc[0]` on an empty bench pre-fill selection,
  `AttributeError` from `selected_team.element_type` when the concatenated
  result frame is empty and so has no columns) are modelled by `Option`:
  `none` means the invocation raises and returns no roster.
-/

open List

/-- One row of the `predictions` dataframe, restricted to the columns read by
`select_best_team`. -/
structure Player where
  web_name : String
  element_type : Nat
  team_name : String
  now_cost : ℚ
  total_points : ℚ
deriving DecidableEq

/-- The ranking key `points_sqaure_per_million = log(total_points ** 2 / now_cost)`,
modelled as the exact rational `total_points ^ 2 / now_cost` (the logarithm is
strictly monotone, so it ranks identically; see the file header). -/
def value_metric (p : Player) : ℚ := p.total_points ^ 2 / p.now_cost

/-- `rankRel a b` holds when `a` may precede `b` in the descending ranking:
`a`'s metric is at least `b`'s. -/
def rankRel (a b : Player) : Prop := value_metric b ≤ value_metric a

instance : DecidableRel rankRel := fun a b =>
  inferInstanceAs (Decidable (value_metric b ≤ value_metric a))

instance : IsTotal Player rankRel :=
  ⟨fun a b => le_total (value_metric b) (value_metric a)⟩

instance : IsTrans Player rankRel :=
  ⟨fun _ _ _ h1 h2 => le_trans h2 h1⟩

/-- `predictions.sort_values(by='points_sqaure_per_million', ascending=False)`:
a descending sort by the value metric.  `sort_values` uses the default
`kind='quicksort'`, which pandas does not document as stable, so the order of
equal-metric rows on large inputs is implementation-defined; the embedding
fixes one concrete deterministic refinement (a stable `insertionSort`, which
coincides with the real sort on the small inputs evaluated below).  No
theorem in this file relies on the order of equal-metric candidates. -/
def rank (ps : List Player) : List Player := ps.insertionSort rankRel

/-- The four keys of the `team` dictionary. -/
inductive Pos
  | goalkeepers
  | defenders
  | midfielders
  | forwards
deriving DecidableEq

/-- `position_map = {1: 'goalkeepers', 2: 'defenders', 3: 'midfielders', 4: 'forwards'}`;
a lookup with any other key raises `KeyError`, modelled by `none`. -/
def position_map? (e : Nat) : Option Pos :=
  if e = 1 then some .goalkeepers
  else if e = 2 then some .defenders
  else if e = 3 then some .midfielders
  else if e = 4 then some .forwards
  else none

/-- `position_limits = {'goalkeepers': 2, 'defenders': 5, 'midfielders': 5, 'forwards': 3}`. -/
def position_limits : Pos → Nat
  | .goalkeepers => 2
  | .defenders => 5
  | .midfielders => 5
  | .forwards => 3

/-- `team_limits = 3`: maximum players per club. -/
def team_limits : Nat := 3

/-- The mutable selection state: the `team` dictionary (one player list per
position), the `team_count` dictionary (club name to count, absent keys read
as 0) and the running `total_cost`. -/
structure SelState where
  goalkeepers : List Player
  defenders : List Player
  midfielders : List Player
  forwards : List Player
  team_count : String → Nat
  total_cost : ℚ

/-- The state before any player is admitted. -/
def initState : SelState :=
  { goalkeepers := [], defenders := [], midfielders := [], forwards := [],
    team_count := fun _ => 0, total_cost := 0 }

/-- `team[position]`. -/
def posList (s : SelState) : Pos → List Player
  | .goalkeepers => s.goalkeepers
  | .defenders => s.defenders
  | .midfielders => s.midfielders
  | .forwards => s.forwards

/-- `team[position] = l` (the other position lists are unchanged). -/
def setPos (s : SelState) (pos : Pos) (l : List Player) : SelState :=
  match pos with
  | .goalkeepers => { s with goalkeepers := l }
  | .defenders => { s with defenders := l }
  | .midfielders => { s with midfielders := l }
  | .forwards => { s with forwards := l }

/-- Admitting a player: append to the position's list, increment the club's
count, add the price to the running cost.  Used by both the bench pre-fill and
the main pass. -/
def addPlayer (s : SelState) (p : Player) (pos : Pos) : SelState :=
  { setPos s pos (posList s pos ++ [p]) with
    team_count := fun c => if c = p.team_name then s.team_count c + 1 else s.team_count c,
    total_cost := s.total_cost + p.now_cost }

/-- `can_add_player(player, position)`: the three checks in source order
(position capacity, club capacity, budget); the first failing check rejects. -/
def can_add_player (s : SelState) (budget : ℚ) (p : Player) (pos : Pos) : Bool :=
  if position_limits pos ≤ (posList s pos).length then false
  else if team_limits ≤ s.team_count p.team_name then false
  else if budget < s.total_cost + p.now_cost then false
  else true

/-- One iteration of the main loop: look the position up in `position_map`
(`KeyError`, i.e. `none`, on an unknown `element_type`), then admit the player
exactly when `can_add_player` returns true. -/
def main_step (budget : ℚ) (s : SelState) (p : Player) : Option SelState :=
  match position_map? p.element_type with
  | none => none
  | some pos => some (if can_add_player s budget p pos then addPlayer s p pos else s)

/-- The main pass: one sweep over the ranked list, threading the state. -/
def runMain (budget : ℚ) : SelState → List Player → Option SelState
  | s, [] => some s
  | s, p :: ps =>
    match main_step budget s p with
    | none => none
    | some t => runMain budget t ps

/-- The accumulator of the minimal-price scan: keep the cheaper of the
current minimum and the next candidate (strictly cheaper replaces, so the
first minimal-price row wins, matching `nsmallest`'s `keep='first'`). -/
def pick_cheaper (acc : Option Player) (p : Player) : Option Player :=
  match acc with
  | none => some p
  | some q => if p.now_cost < q.now_cost then some p else some q

/-- `predictions[predictions['element_type'] == e].nsmallest(1, 'now_cost').iloc[0]`:
the first (in current frame order) candidate of position code `e` with minimal
price; `none` when no candidate of that position exists (`IndexError`). -/
def cheapest? (ps : List Player) (e : Nat) : Option Player :=
  (ps.filter (fun p => p.element_type == e)).foldl pick_cheaper none

/-- `position_map.items()` in iteration order. -/
def position_pairs : List (Nat × Pos) :=
  [(1, .goalkeepers), (2, .defenders), (3, .midfielders), (4, .forwards)]

/-- One iteration of the bench pre-fill: add the cheapest candidate of the
position unconditionally (no `can_add_player` call); fail when the position
has no candidate. -/
def bench_step (ranked : List Player) (s : SelState) (pr : Nat × Pos) : Option SelState :=
  match cheapest? ranked pr.1 with
  | some p => some (addPlayer s p pr.2)
  | none => none

/-- The bench pre-fill loop, threading the state through the position pairs. -/
def runBenchAux (ranked : List Player) : SelState → List (Nat × Pos) → Option SelState
  | s, [] => some s
  | s, pr :: prs =>
    match bench_step ranked s pr with
    | none => none
    | some t => runBenchAux ranked t prs

/-- The bench pre-fill pass over the four positions in order. -/
def runBench (ranked : List Player) (s : SelState) : Option SelState :=
  runBenchAux ranked s position_pairs

/-- The state after the optional bench pre-fill. -/
def post_bench (ranked : List Player) (auto_select_bench : Bool) : Option SelState :=
  if auto_select_bench then runBench ranked initState else some initState

/-- The returned selection together with the aggregates the function reports. -/
structure Roster where
  players : List Player
  total_cost : ℚ
  expected_points : ℚ
  remaining_budget : ℚ
deriving DecidableEq

/-- `pd.concat([pd.DataFrame(team[pos]) for pos in team])`: the four position
lists in dictionary insertion order. -/
def flatten_team (s : SelState) : List Player :=
  s.goalkeepers ++ s.defenders ++ s.midfielders ++ s.forwards

/-- `select_best_team(predictions, budget, auto_select_bench)`.  `none` models
an uncaught exception: `IndexError` in the bench pre-fill, `KeyError` on an
unknown `element_type` in the main loop, or the `AttributeError` raised by
`selected_team.element_type` when every position list is empty (the
concatenation of empty frames has no columns). -/
def select_best_team (predictions : List Player) (budget : ℚ)
    (auto_select_bench : Bool) : Option Roster :=
  let ranked := rank predictions
  match post_bench ranked auto_select_bench with
  | none => none
  | some s1 =>
    match runMain budget s1 ranked with
    | none => none
    | some s2 =>
      let players := flatten_team s2
      if players.isEmpty then none
      else
        some { players := players,
               total_cost := s2.total_cost,
               expected_points := (players.map Player.total_points).sum,
               remaining_budget := budget - s2.total_cost }

/-- The number of players of club `c` in a list (used to state the
team-capacity property about the roster itself). -/
def club_count (l : List Player) (c : String) : Nat :=
  (l.filter (fun p => p.team_name == c)).length

/-- `team_count` agrees with the club counts of the accumulated roster. -/
def counts_ok (s : SelState) : Prop :=
  ∀ c, s.team_count c = club_count (flatten_team s) c

/-- Four candidates, one per position, four distinct clubs, price 4 each. -/
def sample_four : List Player :=
  [⟨"g", 1, "A", 4, 10⟩, ⟨"d", 2, "B", 4, 10⟩, ⟨"m", 3, "C", 4, 10⟩, ⟨"f", 4, "D", 4, 10⟩]

/-- Four candidates, one per position, distinct clubs, price 30 each: their
combined price 120 exceeds the default budget 100. -/
def sample_pricey : List Player :=
  [⟨"g", 1, "A", 30, 10⟩, ⟨"d", 2, "B", 30, 10⟩, ⟨"m", 3, "C", 30, 10⟩, ⟨"f", 4, "D", 30, 10⟩]

/-- Four candidates, one per position, all of club `Z`, price 30 each. -/
def sample_one_club : List Player :=
  [⟨"g", 1, "Z", 30, 10⟩, ⟨"d", 2, "Z", 30, 10⟩, ⟨"m", 3, "Z", 30, 10⟩, ⟨"f", 4, "Z", 30, 10⟩]

/-- A single midfielder whose price 200 exceeds any reasonable budget. -/
def sample_mid_only : List Player :=
  [⟨"m", 3, "M", 200, 10⟩]

/-- A single affordable defender (no goalkeeper in the input). -/
def sample_def_only : List Player :=
  [⟨"d", 2, "D", 4, 10⟩]

/-- A single candidate with the unrecognized position code 7. -/
def sample_bad : List Player :=
  [⟨"x", 7, "X", 4, 10⟩]

/-- A candidate with projected score zero behind one with a positive score. -/
def sample_zero : List Player :=
  [⟨"z", 1, "A", 4, 0⟩, ⟨"p", 2, "B", 4, 5⟩]

/-- The state the bench pre-fill reaches on `sample_one_club`. -/
def sample_one_club_state : SelState :=
  addPlayer (addPlayer (addPlayer (addPlayer initState
    ⟨"g", 1, "Z", 30, 10⟩ .goalkeepers) ⟨"d", 2, "Z", 30, 10⟩ .defenders)
    ⟨"m", 3, "Z", 30, 10⟩ .midfielders) ⟨"f", 4, "Z", 30, 10⟩ .forwards

/-! ### Basic state lemmas -/

theorem addPlayer_team_count (s : SelState) (p : Player) (pos : Pos) (c : String) :
    (addPlayer s p pos).team_count c =
      if c = p.team_name then s.team_count c + 1 else s.team_count c := rfl

theorem addPlayer_total_cost (s : SelState) (p : Player) (pos : Pos) :
    (addPlayer s p pos).total_cost = s.total_cost + p.now_cost := rfl

theorem addPlayer_posList_self (s : SelState) (p : Player) (pos : Pos) :
    posList (addPlayer s p pos) pos = posList s pos ++ [p] := by
  cases pos <;> rfl

theorem addPlayer_posList_mem {s : SelState} {p q : Player} {pos pos2 : Pos}
    (h : q ∈ posList (addPlayer s p pos) pos2) : q ∈ posList s pos2 ∨ q = p := by
  cases pos <;> cases pos2 <;>
    simp only [addPlayer, setPos, posList, List.mem_append, List.mem_singleton] at h <;>
    tauto

theorem can_add_player_iff {s : SelState} {budget : ℚ} {p : Player} {pos : Pos} :
    can_add_player s budget p pos = true ↔
      (posList s pos).length < position_limits pos ∧
      s.team_count p.team_name < team_limits ∧
      s.total_cost + p.now_cost ≤ budget := by
  unfold can_add_player
  split_ifs with h1 h2 h3
  · simp only [Bool.false_eq_true, false_iff]
    rintro ⟨a, -, -⟩
    omega
  · simp only [Bool.false_eq_true, false_iff]
    rintro ⟨-, b, -⟩
    omega
  · simp only [Bool.false_eq_true, false_iff]
    rintro ⟨-, -, hc⟩
    exact absurd hc (not_le.mpr h3)
  · simp only [true_iff]
    exact ⟨by omega, by omega, not_lt.mp h3⟩

/-! ### Main-pass invariants -/

theorem runMain_cost_le {budget : ℚ} :
    ∀ {l : List Player} {s t : SelState}, runMain budget s l = some t →
      s.total_cost ≤ budget → t.total_cost ≤ budget := by
  intro l
  induction l with
  | nil =>
    intro s t h hs
    simp only [runMain, Option.some.injEq] at h
    exact h ▸ hs
  | cons p l ih =>
    intro s t h hs
    rw [runMain] at h
    cases hm : main_step budget s p with
    | none => rw [hm] at h; cases h
    | some s2 =>
      rw [hm] at h
      refine ih h ?_
      unfold main_step at hm
      cases hp : position_map? p.element_type with
      | none => rw [hp] at hm; cases hm
      | some pos =>
        rw [hp] at hm
        injection hm with hm2
        by_cases hc : can_add_player s budget p pos = true
        · rw [if_pos hc] at hm2
          rw [← hm2, addPlayer_total_cost]
          exact (can_add_player_iff.mp hc).2.2
        · rw [if_neg hc] at hm2
          exact hm2 ▸ hs

theorem main_step_cases {budget : ℚ} {s s2 : SelState} {p : Player}
    (h : main_step budget s p = some s2) :
    ∃ pos, position_map? p.element_type = some pos ∧
      ((can_add_player s budget p pos = true ∧ s2 = addPlayer s p pos) ∨
       (can_add_player s budget p pos = false ∧ s2 = s)) := by
  unfold main_step at h
  cases hp : position_map? p.element_type with
  | none => rw [hp] at h; cases h
  | some pos =>
    rw [hp] at h
    injection h with h2
    refine ⟨pos, rfl, ?_⟩
    by_cases hc : can_add_player s budget p pos = true
    · rw [if_pos hc] at h2; exact Or.inl ⟨hc, h2.symm⟩
    · rw [if_neg hc] at h2
      exact Or.inr ⟨Bool.not_eq_true _ ▸ hc, h2.symm⟩

theorem runMain_count_mono {budget : ℚ} :
    ∀ {l : List Player} {s t : SelState}, runMain budget s l = some t →
      ∀ c, s.team_count c ≤ t.team_count c := by
  intro l
  induction l with
  | nil =>
    intro s t h c
    simp only [runMain, Option.some.injEq] at h
    exact h ▸ le_refl _
  | cons p l ih =>
    intro s t h c
    rw [runMain] at h
    cases hm : main_step budget s p with
    | none => rw [hm] at h; cases h
    | some s2 =>
      rw [hm] at h
      refine le_trans ?_ (ih h c)
      obtain ⟨pos, -, hcase⟩ := main_step_cases hm
      rcases hcase with ⟨-, rfl⟩ | ⟨-, rfl⟩
      · rw [addPlayer_team_count]
        split_ifs <;> omega
      · exact le_refl _

theorem runMain_count_le {budget : ℚ} :
    ∀ {l : List Player} {s t : SelState}, runMain budget s l = some t →
      ∀ c, t.team_count c ≤ max (s.team_count c) team_limits := by
  intro l
  induction l with
  | nil =>
    intro s t h c
    simp only [runMain, Option.some.injEq] at h
    subst h
    exact le_max_left _ _
  | cons p l ih =>
    intro s t h c
    rw [runMain] at h
    cases hm : main_step budget s p with
    | none => rw [hm] at h; cases h
    | some s2 =>
      rw [hm] at h
      have h2 := ih h c
      obtain ⟨pos, -, hcase⟩ := main_step_cases hm
      rcases hcase with ⟨hc, rfl⟩ | ⟨-, rfl⟩
      · have h3 := (can_add_player_iff.mp hc).2.1
        rw [addPlayer_team_count] at h2
        by_cases he : c = p.team_name
        · rw [if_pos he] at h2
          subst he
          omega
        · rw [if_neg he] at h2
          exact h2
      · exact h2

theorem runMain_mem {budget : ℚ} :
    ∀ {l : List Player} {s t : SelState}, runMain budget s l = some t →
      ∀ pos q, q ∈ posList t pos → q ∈ posList s pos ∨ q ∈ l := by
  intro l
  induction l with
  | nil =>
    intro s t h pos q hq
    simp only [runMain, Option.some.injEq] at h
    exact Or.inl (h ▸ hq)
  | cons p l ih =>
    intro s t h pos q hq
    rw [runMain] at h
    cases hm : main_step budget s p with
    | none => rw [hm] at h; cases h
    | some s2 =>
      rw [hm] at h
      rcases ih h pos q hq with h2 | h2
      · obtain ⟨pos2, -, hcase⟩ := main_step_cases hm
        rcases hcase with ⟨-, rfl⟩ | ⟨-, rfl⟩
        · rcases addPlayer_posList_mem h2 with h3 | h3
          · exact Or.inl h3
          · exact Or.inr (h3 ▸ List.mem_cons_self p l)
        · exact Or.inl h2
      · exact Or.inr (List.mem_cons_of_mem p h2)

theorem runMain_none {budget : ℚ} :
    ∀ {l : List Player} {s : SelState} {p : Player}, p ∈ l →
      position_map? p.element_type = none → runMain budget s l = none := by
  intro l
  induction l with
  | nil => intro s p h; cases h
  | cons a l ih =>
    intro s p h hp
    rw [runMain]
    rcases List.mem_cons.mp h with rfl | h2
    · unfold main_step
      rw [hp]
    · cases hm : main_step budget s a with
      | none => rfl
      | some s2 => exact ih h2 hp

/-! ### Bench pre-fill lemmas -/

theorem position_pairs_mem {e : Nat} {pos : Pos} (h : position_map? e = some pos) :
    (e, pos) ∈ position_pairs := by
  unfold position_map? at h
  split_ifs at h with h1 h2 h3 h4 <;>
    first
      | (injection h with h5; subst h5; simp_all [position_pairs])
      | cases h

theorem runBenchAux_none {ranked : List Player} :
    ∀ {prs : List (Nat × Pos)} {s : SelState} {e : Nat} {pos : Pos},
      (e, pos) ∈ prs → cheapest? ranked e = none → runBenchAux ranked s prs = none := by
  intro prs
  induction prs with
  | nil => intro s e pos h; cases h
  | cons pr prs ih =>
    intro s e pos h hc
    rw [runBenchAux]
    rcases List.mem_cons.mp h with rfl | h2
    · unfold bench_step
      rw [hc]
    · cases hb : bench_step ranked s pr with
      | none => rfl
      | some t => exact ih h2 hc

theorem cheapest?_eq_none {l : List Player} {e : Nat}
    (h : ∀ p ∈ l, p.element_type ≠ e) : cheapest? l e = none := by
  unfold cheapest?
  have h2 : l.filter (fun p => p.element_type == e) = [] := by
    rw [List.filter_eq_nil_iff]
    intro p hp
    simpa using h p hp
  rw [h2]
  rfl

theorem foldl_pick_cheaper_spec :
    ∀ (m : List Player) (acc : Option Player) (p : Player),
      m.foldl pick_cheaper acc = some p →
      (acc = some p ∨ p ∈ m) ∧ (∀ q ∈ m, p.now_cost ≤ q.now_cost) ∧
        (∀ a, acc = some a → p.now_cost ≤ a.now_cost) := by
  intro m
  induction m with
  | nil =>
    intro acc p h
    simp only [List.foldl_nil] at h
    refine ⟨Or.inl h, by simp, ?_⟩
    intro a ha
    rw [h] at ha
    injection ha with ha2
    rw [ha2]
  | cons b m ih =>
    intro acc p h
    rw [List.foldl_cons] at h
    obtain ⟨ih1, ih2, ih3⟩ := ih (pick_cheaper acc b) p h
    have hb : ∃ c, pick_cheaper acc b = some c ∧ c.now_cost ≤ b.now_cost ∧
        (∀ a, acc = some a → c.now_cost ≤ a.now_cost) ∧ (c = b ∨ acc = some c) := by
      cases acc with
      | none =>
        refine ⟨b, rfl, le_refl _, ?_, Or.inl rfl⟩
        intro a ha
        cases ha
      | some a =>
        by_cases hlt : b.now_cost < a.now_cost
        · refine ⟨b, ?_, le_refl _, ?_, Or.inl rfl⟩
          · simp [pick_cheaper, hlt]
          · intro a2 ha2
            injection ha2 with ha3
            exact ha3 ▸ le_of_lt hlt
        · refine ⟨a, ?_, not_lt.mp hlt, ?_, Or.inr rfl⟩
          · simp [pick_cheaper, hlt]
          · intro a2 ha2
            injection ha2 with ha3
            exact ha3 ▸ le_refl _
    obtain ⟨c, hc, hcb, hca, hcmem⟩ := hb
    have hpc : p.now_cost ≤ c.now_cost := ih3 c hc
    refine ⟨?_, ?_, ?_⟩
    · rcases ih1 with h2 | h2
      · rw [hc] at h2
        injection h2 with h3
        subst h3
        rcases hcmem with h4 | h4
        · exact Or.inr (h4 ▸ List.mem_cons_self _ _)
        · exact Or.inl h4
      · exact Or.inr (List.mem_cons_of_mem b h2)
    · intro q hq
      rcases List.mem_cons.mp hq with rfl | h2
      · exact le_trans hpc hcb
      · exact ih2 q h2
    · intro a ha
      exact le_trans hpc (hca a ha)

theorem cheapest?_spec {l : List Player} {e : Nat} {p : Player}
    (h : cheapest? l e = some p) :
    p ∈ l ∧ p.element_type = e ∧
      ∀ q ∈ l, q.element_type = e → p.now_cost ≤ q.now_cost := by
  unfold cheapest? at h
  obtain ⟨h1, h2, -⟩ := foldl_pick_cheaper_spec _ none p h
  rcases h1 with h3 | h3
  · cases h3
  · have h4 := List.mem_filter.mp h3
    refine ⟨h4.1, by simpa using h4.2, ?_⟩
    intro q hq hqe
    exact h2 q (List.mem_filter.mpr ⟨hq, by simpa using hqe⟩)

/-! ### Club-count bookkeeping -/

theorem club_count_append (l1 l2 : List Player) (c : String) :
    club_count (l1 ++ l2) c = club_count l1 c + club_count l2 c := by
  simp [club_count, List.filter_append]

theorem counts_ok_init : counts_ok initState := by
  intro c
  simp [initState, flatten_team, club_count]

theorem club_count_nil (c : String) : club_count [] c = 0 := rfl

theorem club_count_cons (p : Player) (l : List Player) (c : String) :
    club_count (p :: l) c = (if c = p.team_name then 1 else 0) + club_count l c := by
  by_cases h : c = p.team_name
  · have h2 : (p.team_name == c) = true := by simp [h]
    simp [club_count, List.filter, h2, h]
    omega
  · have h2 : (p.team_name == c) = false := by
      simp only [beq_eq_false_iff_ne]
      exact fun hh => h hh.symm
    simp [club_count, List.filter, h2, h]

theorem flatten_addPlayer (s : SelState) (p : Player) (pos : Pos) (c : String) :
    club_count (flatten_team (addPlayer s p pos)) c =
      club_count (flatten_team s) c + (if c = p.team_name then 1 else 0) := by
  cases pos <;>
    simp [flatten_team, addPlayer, setPos, posList, club_count_append, club_count_cons,
      club_count_nil] <;>
    split_ifs <;> omega

theorem counts_ok_add {s : SelState} (h : counts_ok s) (p : Player) (pos : Pos) :
    counts_ok (addPlayer s p pos) := by
  intro c
  rw [addPlayer_team_count, flatten_addPlayer, ← h c]
  split_ifs <;> omega

theorem runMain_counts_ok {budget : ℚ} :
    ∀ {l : List Player} {s t : SelState}, runMain budget s l = some t →
      counts_ok s → counts_ok t := by
  intro l
  induction l with
  | nil =>
    intro s t h hs
    simp only [runMain, Option.some.injEq] at h
    exact h ▸ hs
  | cons p l ih =>
    intro s t h hs
    rw [runMain] at h
    cases hm : main_step budget s p with
    | none => rw [hm] at h; cases h
    | some s2 =>
      rw [hm] at h
      refine ih h ?_
      obtain ⟨pos, -, hcase⟩ := main_step_cases hm
      rcases hcase with ⟨-, rfl⟩ | ⟨-, rfl⟩
      · exact counts_ok_add hs p pos
      · exact hs

theorem runBenchAux_counts_ok {ranked : List Player} :
    ∀ {prs : List (Nat × Pos)} {s t : SelState}, runBenchAux ranked s prs = some t →
      counts_ok s → counts_ok t := by
  intro prs
  induction prs with
  | nil =>
    intro s t h hs
    simp only [runBenchAux, Option.some.injEq] at h
    exact h ▸ hs
  | cons pr prs ih =>
    intro s t h hs
    rw [runBenchAux] at h
    cases hb : bench_step ranked s pr with
    | none => rw [hb] at h; cases h
    | some s2 =>
      rw [hb] at h
      refine ih h ?_
      unfold bench_step at hb
      cases hc : cheapest? ranked pr.1 with
      | none => rw [hc] at hb; cases hb
      | some p =>
        rw [hc] at hb
        injection hb with hb2
        exact hb2 ▸ counts_ok_add hs p pr.2

theorem post_bench_counts_ok {ranked : List Player} {b : Bool} {s : SelState}
    (h : post_bench ranked b = some s) : counts_ok s := by
  unfold post_bench at h
  cases b with
  | false =>
    rw [if_neg (by simp)] at h
    injection h with h2
    exact h2 ▸ counts_ok_init
  | true =>
    rw [if_pos rfl] at h
    unfold runBench at h
    exact runBenchAux_counts_ok h counts_ok_init

/-! ### Ranking lemmas -/

theorem rank_perm (ps : List Player) : rank ps ~ ps :=
  List.perm_insertionSort rankRel ps

theorem rank_sorted (ps : List Player) : (rank ps).Sorted rankRel :=
  List.sorted_insertionSort rankRel ps

theorem value_metric_of_zero {p : Player} (h : p.total_points = 0) :
    value_metric p = 0 := by
  simp [value_metric, h]

theorem value_metric_pos {p : Player} (hp : 0 < p.total_points)
    (hc : 0 < p.now_cost) : 0 < value_metric p :=
  div_pos (pow_pos hp 2) hc

/-! ### Unfolding lemmas for `select_best_team` -/

theorem select_best_team_eq (ps : List Player) (budget : ℚ) (bench : Bool) :
    select_best_team ps budget bench =
      (post_bench (rank ps) bench).bind (fun s1 =>
        (runMain budget s1 (rank ps)).bind (fun s2 =>
          if (flatten_team s2).isEmpty then none
          else some ⟨flatten_team s2, s2.total_cost,
            ((flatten_team s2).map Player.total_points).sum, budget - s2.total_cost⟩)) := by
  rw [select_best_team]
  cases post_bench (rank ps) bench with
  | none => rfl
  | some s1 =>
    dsimp only [Option.bind]
    cases runMain budget s1 (rank ps) with
    | none => rfl
    | some s2 => rfl

theorem select_best_team_inv {ps : List Player} {budget : ℚ} {bench : Bool} {r : Roster}
    (h : select_best_team ps budget bench = some r) :
    ∃ s1 s2, post_bench (rank ps) bench = some s1 ∧
      runMain budget s1 (rank ps) = some s2 ∧
      flatten_team s2 ≠ [] ∧
      r = ⟨flatten_team s2, s2.total_cost,
        ((flatten_team s2).map Player.total_points).sum, budget - s2.total_cost⟩ := by
  rw [select_best_team_eq] at h
  obtain ⟨s1, hpb, h2⟩ := Option.bind_eq_some.mp h
  obtain ⟨s2, hrm, h3⟩ := Option.bind_eq_some.mp h2
  by_cases he : (flatten_team s2).isEmpty
  · rw [if_pos he] at h3; cases h3
  · rw [if_neg he] at h3
    injection h3 with h4
    refine ⟨s1, s2, hpb, hrm, ?_, h4.symm⟩
    intro hnil
    exact he (by simp [hnil])

theorem select_best_team_none_of_bench {ps : List Player} {budget : ℚ} {bench : Bool}
    (h : post_bench (rank ps) bench = none) :
    select_best_team ps budget bench = none := by
  rw [select_best_team_eq, h]
  rfl

theorem select_best_team_none_of_main {ps : List Player} {budget : ℚ} {bench : Bool}
    {s1 : SelState} (h1 : post_bench (rank ps) bench = some s1)
    (h2 : runMain budget s1 (rank ps) = none) :
    select_best_team ps budget bench = none := by
  rw [select_best_team_eq, h1]
  dsimp only [Option.bind]
  rw [h2]

theorem posList_init (pos : Pos) : posList initState pos = [] := by
  cases pos <;> rfl

theorem mem_flatten_team {s : SelState} {p : Player} (h : p ∈ flatten_team s) :
    ∃ pos, p ∈ posList s pos := by
  rcases List.mem_append.mp h with h2 | h2
  · rcases List.mem_append.mp h2 with h3 | h3
    · rcases List.mem_append.mp h3 with h4 | h4
      · exact ⟨.goalkeepers, h4⟩
      · exact ⟨.defenders, h4⟩
    · exact ⟨.midfielders, h3⟩
  · exact ⟨.forwards, h2⟩

theorem post_bench_false {ranked : List Player} {s : SelState}
    (h : post_bench ranked false = some s) : s = initState := by
  unfold post_bench at h
  rw [if_neg (by simp)] at h
  injection h with h2
  exact h2.symm

/-! ### The claims -/

/-- C2: in the main pass a candidate is admitted if and only if all three
checks hold — position count below `position_limits`, club count below
`team_limits`, and `total_cost` plus price within budget — and
`can_add_player` evaluates them in exactly this short-circuit order (its
definition is the if-chain in source order, so the first failing check
rejects). -/
theorem C2_admission_predicate (s : SelState) (budget : ℚ) (p : Player) (pos : Pos)
    (h : position_map? p.element_type = some pos) :
    (can_add_player s budget p pos = true ↔
      (posList s pos).length < position_limits pos ∧
      s.team_count p.team_name < team_limits ∧
      s.total_cost + p.now_cost ≤ budget) ∧
    main_step budget s p = some
      (if (posList s pos).length < position_limits pos ∧
          s.team_count p.team_name < team_limits ∧
          s.total_cost + p.now_cost ≤ budget
        then addPlayer s p pos else s) := by
  refine ⟨can_add_player_iff, ?_⟩
  rw [main_step, h]
  exact congrArg some (if_congr can_add_player_iff rfl rfl)

/-- Witness for C2 at a concrete state and player. -/
theorem C2_admission_predicate_witness :
    position_map? (Player.element_type ⟨"g", 1, "A", 4, 10⟩) = some Pos.goalkeepers ∧
    ((can_add_player initState 100 ⟨"g", 1, "A", 4, 10⟩ Pos.goalkeepers = true ↔
      (posList initState Pos.goalkeepers).length < position_limits Pos.goalkeepers ∧
      initState.team_count (Player.team_name ⟨"g", 1, "A", 4, 10⟩) < team_limits ∧
      initState.total_cost + Player.now_cost ⟨"g", 1, "A", 4, 10⟩ ≤ 100) ∧
    main_step 100 initState ⟨"g", 1, "A", 4, 10⟩ = some
      (if (posList initState Pos.goalkeepers).length < position_limits Pos.goalkeepers ∧
          initState.team_count (Player.team_name ⟨"g", 1, "A", 4, 10⟩) < team_limits ∧
          initState.total_cost + Player.now_cost ⟨"g", 1, "A", 4, 10⟩ ≤ 100
        then addPlayer initState ⟨"g", 1, "A", 4, 10⟩ Pos.goalkeepers else initState)) :=
  ⟨rfl, C2_admission_predicate initState 100 ⟨"g", 1, "A", 4, 10⟩ Pos.goalkeepers rfl⟩

/-- C5: for every club, the number of players admitted by the main pass
(excluding bench pre-fill picks) from that club is at most `team_limits`,
whatever the bench setting — stated both on the `team_count` dictionary and
on the club counts of the accumulated roster. -/
theorem C5_team_capacity_main_pass {ps : List Player} {budget : ℚ} {bench : Bool}
    {s1 s2 : SelState} (h1 : post_bench (rank ps) bench = some s1)
    (h2 : runMain budget s1 (rank ps) = some s2) :
    ∀ c, (s2.team_count c - s1.team_count c ≤ team_limits) ∧
      (club_count (flatten_team s2) c - club_count (flatten_team s1) c ≤ team_limits) := by
  intro c
  have hmono := runMain_count_mono h2 c
  have hle := runMain_count_le h2 c
  have hmax : max (s1.team_count c) team_limits ≤ s1.team_count c + team_limits :=
    max_le (Nat.le_add_right _ _) (Nat.le_add_left _ _)
  have hc1 := post_bench_counts_ok h1 c
  have hc2 := runMain_counts_ok h2 (post_bench_counts_ok h1) c
  constructor
  · omega
  · rw [← hc1, ← hc2]
    omega

/-- Witness for C5 at a concrete (empty) run. -/
theorem C5_team_capacity_main_pass_witness :
    post_bench (rank ([] : List Player)) false = some initState ∧
    runMain 100 initState (rank ([] : List Player)) = some initState ∧
    ∀ c, (initState.team_count c - initState.team_count c ≤ team_limits) ∧
      (club_count (flatten_team initState) c - club_count (flatten_team initState) c
        ≤ team_limits) :=
  ⟨rfl, rfl, @C5_team_capacity_main_pass [] 100 false initState initState rfl rfl⟩

/-- C8: the selection is a pure function of its inputs — identical candidate
lists (in the same order), budgets and bench flags yield identical results,
and in particular identical players, order and aggregates. -/
theorem C8_determinism (ps1 ps2 : List Player) (b1 b2 : ℚ) (f1 f2 : Bool)
    (hp : ps1 = ps2) (hb : b1 = b2) (hf : f1 = f2) :
    select_best_team ps1 b1 f1 = select_best_team ps2 b2 f2 ∧
    ∀ r1 r2, select_best_team ps1 b1 f1 = some r1 →
      select_best_team ps2 b2 f2 = some r2 →
      r1.players = r2.players ∧ r1.total_cost = r2.total_cost ∧
      r1.expected_points = r2.expected_points ∧
      r1.remaining_budget = r2.remaining_budget := by
  subst hp
  subst hb
  subst hf
  refine ⟨rfl, ?_⟩
  intro r1 r2 h1 h2
  rw [h1] at h2
  injection h2 with h3
  subst h3
  exact ⟨rfl, rfl, rfl, rfl⟩

/-- Witness for C8 at a concrete pair of identical runs. -/
theorem C8_determinism_witness :
    sample_four = sample_four ∧ (100 : ℚ) = 100 ∧ true = true ∧
    (select_best_team sample_four 100 true = select_best_team sample_four 100 true ∧
    ∀ r1 r2, select_best_team sample_four 100 true = some r1 →
      select_best_team sample_four 100 true = some r2 →
      r1.players = r2.players ∧ r1.total_cost = r2.total_cost ∧
      r1.expected_points = r2.expected_points ∧
      r1.remaining_budget = r2.remaining_budget) :=
  ⟨rfl, rfl, rfl, C8_determinism sample_four sample_four 100 100 true true rfl rfl rfl⟩

theorem rank_length (ps : List Player) : (rank ps).length = ps.length :=
  List.length_insertionSort rankRel ps

/-- C6: a candidate with `projected_score = 0` has the least possible value
metric (the rational model of `log 0 = -infinity`) and is placed after every
candidate with a positive projected score in the ranked order, hence it is
considered for admission only after all of them. -/
theorem C6_zero_score_sorts_last {ps : List Player}
    (hpos : ∀ p ∈ ps, 0 < p.now_cost) (i j : Fin (rank ps).length)
    (hi : ((rank ps).get i).total_points = 0)
    (hj : 0 < ((rank ps).get j).total_points) : j < i := by
  have hsorted := rank_sorted ps
  rw [List.Sorted, List.pairwise_iff_get] at hsorted
  have hmem : (rank ps).get j ∈ ps :=
    (rank_perm ps).mem_iff.mp (List.get_mem _ j.1 j.2)
  have hjpos : 0 < value_metric ((rank ps).get j) :=
    value_metric_pos hj (hpos _ hmem)
  have hizero : value_metric ((rank ps).get i) = 0 := value_metric_of_zero hi
  rcases lt_trichotomy i j with h | h | h
  · have h2 := hsorted i j h
    unfold rankRel at h2
    rw [hizero] at h2
    exact absurd (lt_of_lt_of_le hjpos h2) (lt_irrefl 0)
  · subst h
    rw [hi] at hj
    exact absurd hj (lt_irrefl 0)
  · exact h

/-- Witness for C6: in `sample_zero` the zero-score goalkeeper ends up at
index 1, after the positive-score defender at index 0. -/
theorem C6_zero_score_sorts_last_witness :
    (∀ p ∈ sample_zero, 0 < p.now_cost) ∧
    ((rank sample_zero).get
      ⟨1, by rw [rank_length]; norm_num [sample_zero]⟩).total_points = 0 ∧
    0 < ((rank sample_zero).get
      ⟨0, by rw [rank_length]; norm_num [sample_zero]⟩).total_points ∧
    (⟨0, by rw [rank_length]; norm_num [sample_zero]⟩ : Fin (rank sample_zero).length) <
      ⟨1, by rw [rank_length]; norm_num [sample_zero]⟩ :=
  ⟨by norm_num [sample_zero],
   by norm_num [rank, sample_zero, List.insertionSort, List.orderedInsert, rankRel,
     value_metric],
   by norm_num [rank, sample_zero, List.insertionSort, List.orderedInsert, rankRel,
     value_metric],
   @C6_zero_score_sorts_last sample_zero (by norm_num [sample_zero]) _ _
     (by norm_num [rank, sample_zero, List.insertionSort, List.orderedInsert, rankRel,
       value_metric])
     (by norm_num [rank, sample_zero, List.insertionSort, List.orderedInsert, rankRel,
       value_metric])⟩

/-- C7 (amended): the core performs no input validation.  A candidate with a
position code outside `{1, 2, 3, 4}` makes the run fail (the `KeyError` of the
main loop), and an empty candidate collection makes the run fail only
incidentally — through the empty pre-fill selection or the empty final
aggregation — while `budget ≤ 0` (and `price ≤ 0`) are accepted without any
error (see the counterexample). -/
theorem C7_validation (ps : List Player) (budget : ℚ) (bench : Bool) :
    (∀ p ∈ ps, position_map? p.element_type = none →
      select_best_team ps budget bench = none) ∧
    select_best_team [] budget bench = none := by
  constructor
  · intro p hp hnone
    have hmem : p ∈ rank ps := (rank_perm ps).mem_iff.mpr hp
    cases hpb : post_bench (rank ps) bench with
    | none => exact select_best_team_none_of_bench hpb
    | some s1 => exact select_best_team_none_of_main hpb (runMain_none hmem hnone)
  · cases bench <;> rfl

/-- Counterexample to C7 as stated: with `budget = 0` (which the claim calls
invalid and fatal) and `auto_select_bench = true`, the core returns a roster
normally instead of failing. -/
theorem C7_validation_counterexample :
    (0 : ℚ) ≤ 0 ∧
    select_best_team sample_four 0 true =
      some ⟨[⟨"g", 1, "A", 4, 10⟩, ⟨"d", 2, "B", 4, 10⟩, ⟨"m", 3, "C", 4, 10⟩,
        ⟨"f", 4, "D", 4, 10⟩], 16, 40, 0 - 16⟩ := by
  refine ⟨le_refl 0, ?_⟩
  norm_num [select_best_team, sample_four, rank, List.insertionSort, List.orderedInsert,
    rankRel, value_metric, post_bench, runBench, runBenchAux, position_pairs, bench_step,
    cheapest?, pick_cheaper, List.foldl, List.filter, runMain, main_step, position_map?,
    can_add_player, addPlayer, setPos, posList, position_limits, team_limits, initState,
    flatten_team] <;> simp <;> norm_num

/-- Witness for C7 on a concrete list with an unrecognized position code. -/
theorem C7_validation_witness :
    (∀ p ∈ sample_bad, position_map? p.element_type = none →
      select_best_team sample_bad 100 false = none) ∧
    select_best_team [] 100 false = none :=
  C7_validation sample_bad 100 false

/-- C10 (amended): when the input has no candidate for one of the four
positions, a run with `auto_select_bench = true` fails during the bench
pre-fill and returns no roster; a run with `auto_select_bench = false` on the
same input leaves that position empty in any roster it returns — but it does
not always complete normally: if no player at all is admitted, the final
aggregation fails too (see the counterexample). -/
theorem C10_missing_position (ps : List Player) (budget : ℚ) (e : Nat) (pos : Pos)
    (he : position_map? e = some pos) (h1 : ∀ p ∈ ps, p.element_type ≠ e) :
    select_best_team ps budget true = none ∧
    ∀ r, select_best_team ps budget false = some r →
      ∀ p ∈ r.players, p.element_type ≠ e := by
  constructor
  · have hnone : cheapest? (rank ps) e = none :=
      cheapest?_eq_none (fun p hp => h1 p ((rank_perm ps).mem_iff.mp hp))
    have hmem := position_pairs_mem he
    refine select_best_team_none_of_bench ?_
    unfold post_bench
    rw [if_pos rfl]
    unfold runBench
    exact runBenchAux_none hmem hnone
  · intro r hr p hp
    obtain ⟨s1, s2, hpb, hrm, -, hreq⟩ := select_best_team_inv hr
    have hs1 := post_bench_false hpb
    subst hs1
    rw [hreq] at hp
    obtain ⟨pos2, hpos2⟩ := mem_flatten_team hp
    rcases runMain_mem hrm pos2 p hpos2 with h2 | h2
    · rw [posList_init] at h2
      cases h2
    · exact h1 p ((rank_perm ps).mem_iff.mp h2)

/-- Counterexample to C10 as stated: `sample_mid_only` has no goalkeeper, and
the `auto_select_bench = false` run does not complete normally either — the
single candidate is too expensive, nothing is admitted, and the empty
aggregation fails, so both runs return no roster. -/
theorem C10_missing_position_counterexample :
    (∀ p ∈ sample_mid_only, p.element_type ≠ 1) ∧
    select_best_team sample_mid_only 100 true = none ∧
    select_best_team sample_mid_only 100 false = none := by
  refine ⟨by simp [sample_mid_only], rfl, ?_⟩
  norm_num [select_best_team, sample_mid_only, rank, List.insertionSort,
    List.orderedInsert, rankRel, value_metric, post_bench, runMain, main_step,
    position_map?, can_add_player, addPlayer, setPos, posList, position_limits,
    team_limits, initState, flatten_team] <;> simp <;> norm_num

/-- Witness for C10 on a concrete input with no goalkeeper. -/
theorem C10_missing_position_witness :
    position_map? 1 = some Pos.goalkeepers ∧
    (∀ p ∈ sample_def_only, p.element_type ≠ 1) ∧
    (select_best_team sample_def_only 100 true = none ∧
    ∀ r, select_best_team sample_def_only 100 false = some r →
      ∀ p ∈ r.players, p.element_type ≠ 1) :=
  ⟨rfl, by simp [sample_def_only],
    C10_missing_position sample_def_only 100 1 Pos.goalkeepers rfl
      (by simp [sample_def_only])⟩

/-- C1 (amended): with `auto_select_bench = false` and a non-negative budget,
`total_cost ≤ budget` holds after every prefix of the main pass and for the
returned roster; with `auto_select_bench = true` the same holds provided the
bench pre-fill itself stayed within budget — but the pre-fill may exceed the
budget, and then the returned roster violates the bound (see the
counterexample). -/
theorem C1_budget_invariant (ps : List Player) (budget : ℚ) (h : 0 ≤ budget) :
    (∀ l1 l2 s, rank ps = l1 ++ l2 → runMain budget initState l1 = some s →
      s.total_cost ≤ budget) ∧
    (∀ r, select_best_team ps budget false = some r → r.total_cost ≤ budget) ∧
    (∀ s1 r, post_bench (rank ps) true = some s1 → s1.total_cost ≤ budget →
      select_best_team ps budget true = some r → r.total_cost ≤ budget) := by
  refine ⟨?_, ?_, ?_⟩
  · intro l1 l2 s hsplit hrun
    exact runMain_cost_le hrun h
  · intro r hr
    obtain ⟨s1, s2, hpb, hrm, -, hreq⟩ := select_best_team_inv hr
    have hs1 := post_bench_false hpb
    subst hs1
    rw [hreq]
    exact runMain_cost_le hrm h
  · intro s1 r hpb hcost hr
    obtain ⟨s1b, s2, hpb2, hrm, -, hreq⟩ := select_best_team_inv hr
    rw [hpb] at hpb2
    injection hpb2 with h2
    subst h2
    rw [hreq]
    exact runMain_cost_le hrm hcost

/-- Counterexample to C1 as stated: with `auto_select_bench = true` on
`sample_pricey` (four players at price 30) and budget 100, the returned
roster costs 120, exceeding the budget. -/
theorem C1_budget_invariant_counterexample :
    (select_best_team sample_pricey 100 true).map Roster.total_cost = some 120 ∧
    ¬((120 : ℚ) ≤ 100) := by
  refine ⟨?_, by norm_num⟩
  norm_num [select_best_team, sample_pricey, rank, List.insertionSort, List.orderedInsert,
    rankRel, value_metric, post_bench, runBench, runBenchAux, position_pairs, bench_step,
    cheapest?, pick_cheaper, List.foldl, List.filter, runMain, main_step, position_map?,
    can_add_player, addPlayer, setPos, posList, position_limits, team_limits, initState,
    flatten_team] <;> simp <;> norm_num

/-- Witness for C1 at a concrete budget. -/
theorem C1_budget_invariant_witness :
    (0 : ℚ) ≤ 100 ∧
    ((∀ l1 l2 s, rank sample_four = l1 ++ l2 → runMain 100 initState l1 = some s →
      s.total_cost ≤ 100) ∧
    (∀ r, select_best_team sample_four 100 false = some r → r.total_cost ≤ 100) ∧
    (∀ s1 r, post_bench (rank sample_four) true = some s1 → s1.total_cost ≤ 100 →
      select_best_team sample_four 100 true = some r → r.total_cost ≤ 100)) :=
  ⟨by norm_num, C1_budget_invariant sample_four 100 (by norm_num)⟩

theorem runBench_spec {ranked : List Player} {p1 p2 p3 p4 : Player}
    (h1 : cheapest? ranked 1 = some p1) (h2 : cheapest? ranked 2 = some p2)
    (h3 : cheapest? ranked 3 = some p3) (h4 : cheapest? ranked 4 = some p4) :
    ∃ s, runBench ranked initState = some s ∧
      s.goalkeepers = [p1] ∧ s.defenders = [p2] ∧ s.midfielders = [p3] ∧
      s.forwards = [p4] ∧
      s.total_cost = p1.now_cost + p2.now_cost + p3.now_cost + p4.now_cost ∧
      ∀ c, s.team_count c = club_count [p1, p2, p3, p4] c := by
  refine ⟨addPlayer (addPlayer (addPlayer (addPlayer initState p1 .goalkeepers)
    p2 .defenders) p3 .midfielders) p4 .forwards, ?_, ?_, ?_, ?_, ?_, ?_, ?_⟩
  · simp only [runBench, runBenchAux, position_pairs, bench_step, h1, h2, h3, h4]
  · simp [addPlayer, setPos, posList, initState]
  · simp [addPlayer, setPos, posList, initState]
  · simp [addPlayer, setPos, posList, initState]
  · simp [addPlayer, setPos, posList, initState]
  · simp [addPlayer, setPos, posList, initState]
  · intro c
    simp only [addPlayer_team_count, initState, club_count_cons, club_count_nil]
    split_ifs <;> omega

/-- C3: with `auto_select_bench = true` the pre-fill pass admits exactly one
player for each of the four positions — a cheapest candidate of that position
among all candidates — without evaluating the admission predicate, adding its
price to `total_cost` and incrementing its club's `team_count`; consequently
the pre-fill alone may exceed the budget and a club's `team_limits` (the last
conjunct exhibits this on four same-club players of combined price 120). -/
theorem C3_bench_prefill {ranked : List Player} {p1 p2 p3 p4 : Player}
    (h1 : cheapest? ranked 1 = some p1) (h2 : cheapest? ranked 2 = some p2)
    (h3 : cheapest? ranked 3 = some p3) (h4 : cheapest? ranked 4 = some p4) :
    (∃ s, runBench ranked initState = some s ∧
      s.goalkeepers = [p1] ∧ s.defenders = [p2] ∧ s.midfielders = [p3] ∧
      s.forwards = [p4] ∧
      s.total_cost = p1.now_cost + p2.now_cost + p3.now_cost + p4.now_cost ∧
      ∀ c, s.team_count c = club_count [p1, p2, p3, p4] c) ∧
    (p1 ∈ ranked ∧ p1.element_type = 1 ∧
      ∀ q ∈ ranked, q.element_type = 1 → p1.now_cost ≤ q.now_cost) ∧
    (p2 ∈ ranked ∧ p2.element_type = 2 ∧
      ∀ q ∈ ranked, q.element_type = 2 → p2.now_cost ≤ q.now_cost) ∧
    (p3 ∈ ranked ∧ p3.element_type = 3 ∧
      ∀ q ∈ ranked, q.element_type = 3 → p3.now_cost ≤ q.now_cost) ∧
    (p4 ∈ ranked ∧ p4.element_type = 4 ∧
      ∀ q ∈ ranked, q.element_type = 4 → p4.now_cost ≤ q.now_cost) ∧
    (∃ s c, runBench (rank sample_one_club) initState = some s ∧
      100 < s.total_cost ∧ team_limits < s.team_count c) := by
  refine ⟨runBench_spec h1 h2 h3 h4, cheapest?_spec h1, cheapest?_spec h2,
    cheapest?_spec h3, cheapest?_spec h4, ?_⟩
  have hg : cheapest? (rank sample_one_club) 1 = some ⟨"g", 1, "Z", 30, 10⟩ := by
    norm_num [cheapest?, pick_cheaper, rank, sample_one_club, List.insertionSort,
      List.orderedInsert, rankRel, value_metric, List.filter, List.foldl]
  have hd : cheapest? (rank sample_one_club) 2 = some ⟨"d", 2, "Z", 30, 10⟩ := by
    norm_num [cheapest?, pick_cheaper, rank, sample_one_club, List.insertionSort,
      List.orderedInsert, rankRel, value_metric, List.filter, List.foldl]
  have hm : cheapest? (rank sample_one_club) 3 = some ⟨"m", 3, "Z", 30, 10⟩ := by
    norm_num [cheapest?, pick_cheaper, rank, sample_one_club, List.insertionSort,
      List.orderedInsert, rankRel, value_metric, List.filter, List.foldl]
  have hf : cheapest? (rank sample_one_club) 4 = some ⟨"f", 4, "Z", 30, 10⟩ := by
    norm_num [cheapest?, pick_cheaper, rank, sample_one_club, List.insertionSort,
      List.orderedInsert, rankRel, value_metric, List.filter, List.foldl]
  obtain ⟨s, hrun, -, -, -, -, hcost, hcount⟩ := runBench_spec hg hd hm hf
  refine ⟨s, "Z", hrun, ?_, ?_⟩
  · rw [hcost]
    norm_num
  · rw [hcount]
    norm_num [club_count, List.filter, team_limits]

/-- Witness for C3 on a concrete candidate list with one player per position. -/
theorem C3_bench_prefill_witness :
    cheapest? sample_four 1 = some ⟨"g", 1, "A", 4, 10⟩ ∧
    cheapest? sample_four 2 = some ⟨"d", 2, "B", 4, 10⟩ ∧
    cheapest? sample_four 3 = some ⟨"m", 3, "C", 4, 10⟩ ∧
    cheapest? sample_four 4 = some ⟨"f", 4, "D", 4, 10⟩ ∧
    ((∃ s, runBench sample_four initState = some s ∧
      s.goalkeepers = [⟨"g", 1, "A", 4, 10⟩] ∧ s.defenders = [⟨"d", 2, "B", 4, 10⟩] ∧
      s.midfielders = [⟨"m", 3, "C", 4, 10⟩] ∧ s.forwards = [⟨"f", 4, "D", 4, 10⟩] ∧
      s.total_cost = Player.now_cost ⟨"g", 1, "A", 4, 10⟩ +
        Player.now_cost ⟨"d", 2, "B", 4, 10⟩ + Player.now_cost ⟨"m", 3, "C", 4, 10⟩ +
        Player.now_cost ⟨"f", 4, "D", 4, 10⟩ ∧
      ∀ c, s.team_count c = club_count [⟨"g", 1, "A", 4, 10⟩, ⟨"d", 2, "B", 4, 10⟩,
        ⟨"m", 3, "C", 4, 10⟩, ⟨"f", 4, "D", 4, 10⟩] c) ∧
    (⟨"g", 1, "A", 4, 10⟩ ∈ sample_four ∧ Player.element_type ⟨"g", 1, "A", 4, 10⟩ = 1 ∧
      ∀ q ∈ sample_four, q.element_type = 1 →
        Player.now_cost ⟨"g", 1, "A", 4, 10⟩ ≤ q.now_cost) ∧
    (⟨"d", 2, "B", 4, 10⟩ ∈ sample_four ∧ Player.element_type ⟨"d", 2, "B", 4, 10⟩ = 2 ∧
      ∀ q ∈ sample_four, q.element_type = 2 →
        Player.now_cost ⟨"d", 2, "B", 4, 10⟩ ≤ q.now_cost) ∧
    (⟨"m", 3, "C", 4, 10⟩ ∈ sample_four ∧ Player.element_type ⟨"m", 3, "C", 4, 10⟩ = 3 ∧
      ∀ q ∈ sample_four, q.element_type = 3 →
        Player.now_cost ⟨"m", 3, "C", 4, 10⟩ ≤ q.now_cost) ∧
    (⟨"f", 4, "D", 4, 10⟩ ∈ sample_four ∧ Player.element_type ⟨"f", 4, "D", 4, 10⟩ = 4 ∧
      ∀ q ∈ sample_four, q.element_type = 4 →
        Player.now_cost ⟨"f", 4, "D", 4, 10⟩ ≤ q.now_cost) ∧
    (∃ s c, runBench (rank sample_one_club) initState = some s ∧
      100 < s.total_cost ∧ team_limits < s.team_count c)) :=
  ⟨rfl, rfl, rfl, rfl, C3_bench_prefill rfl rfl rfl rfl⟩

/-- C9: a bench pre-fill pick is not removed from or marked in the ranked
list, so the main pass can admit the same player again: on `sample_four` with
`auto_select_bench = true`, the returned roster contains the identical
goalkeeper record twice. -/
theorem C9_duplicate_bench_pick :
    ∃ r, select_best_team sample_four 100 true = some r ∧
      r.players.count ⟨"g", 1, "A", 4, 10⟩ = 2 := by
  refine ⟨⟨[⟨"g", 1, "A", 4, 10⟩, ⟨"g", 1, "A", 4, 10⟩, ⟨"d", 2, "B", 4, 10⟩,
    ⟨"d", 2, "B", 4, 10⟩, ⟨"m", 3, "C", 4, 10⟩, ⟨"m", 3, "C", 4, 10⟩,
    ⟨"f", 4, "D", 4, 10⟩, ⟨"f", 4, "D", 4, 10⟩], 32, 80, 100 - 32⟩, ?_, ?_⟩
  · norm_num [select_best_team, sample_four, rank, List.insertionSort, List.orderedInsert,
      rankRel, value_metric, post_bench, runBench, runBenchAux, position_pairs, bench_step,
      cheapest?, pick_cheaper, List.foldl, List.filter, runMain, main_step, position_map?,
      can_add_player, addPlayer, setPos, posList, position_limits, team_limits, initState,
      flatten_team] <;> (try simp) <;> (try norm_num) <;> (try simp) <;> (try norm_num) <;>
      (try exact fun h => absurd h (List.cons_ne_nil _ _))
  · norm_num [List.count_cons, Player.mk.injEq] <;> (try simp) <;> (try norm_num)
